import Mathlib

/-!
Shallow embedding of the cli_debrid Plex-watchlist pipeline.

Source files embedded:
* `src/utilities/watchlist/fetcher.py`        (namespace `Watchlist`)
* `src/utilities/plex_watchlist/fetcher.py`   (namespace `PlexWL`)
* `src/utilities/plex_watchlist/detail_cache.py`
* `src/utilities/watchlist/fetch_coordinator.py`
* `src/utilities/watchlist/item_processor.py` (namespace `ItemProcessor`)
* `src/content_checkers/plex_watchlist.py`    (namespace `Main`)

Network and disk I/O are abstracted: each HTTP request's fate is an input
(`HttpOutcome`), wall-clock time is an explicit `Nat` parameter, and external
collaborators (presence database, Trakt status, TMDB-to-IMDB conversion,
watchlist-removal call) are function-valued environment fields.  Logging is
not modelled.  Python `Optional[str]` values are `Option String`, and Python
truthiness of such values (`None` and `""` are falsy) is `pyTruthy`.
-/

/-- Python truthiness of an `Optional[str]` value: `None` and `""` are falsy. -/
def pyTruthy : Option String → Bool
  | none => false
  | some s => s != ""

/-- An XML element as produced by `xml.etree.ElementTree`: a tag, attributes,
and child elements.  Text content is never read by the code, so it is omitted. -/
inductive XmlElem : Type where
  | node (tag : String) (attrs : List (String × String)) (children : List XmlElem)

def XmlElem.tag : XmlElem → String
  | .node t _ _ => t

def XmlElem.attrs : XmlElem → List (String × String)
  | .node _ a _ => a

def XmlElem.children : XmlElem → List XmlElem
  | .node _ _ c => c

/-- `Element.get(name)`: the attribute value, or `None` when absent. -/
def XmlElem.getAttr (e : XmlElem) (name : String) : Option String :=
  (e.attrs.find? (fun p => p.1 == name)).map Prod.snd

/-- `root.find("./t")`: the first direct child whose tag is `t`, or `None`. -/
def XmlElem.findChild (e : XmlElem) (t : String) : Option XmlElem :=
  e.children.find? (fun c => c.tag == t)

/-- Python truthiness of an `Optional[Element]`: `None` is falsy, and an
`ElementTree` element is falsy exactly when it has no child elements. -/
def elemTruthy : Option XmlElem → Bool
  | none => false
  | some e => !e.children.isEmpty

/-- Python `s.split(sep, 1)[1]`: everything after the first occurrence of
`sep`; `none` when `sep` does not occur (the code only calls this after a
`startswith` check that guarantees occurrence). -/
def pySplitOnceTail (s sep : String) : Option String :=
  match s.splitOn sep with
  | [] => none
  | [_] => none
  | _ :: rest => some (String.intercalate sep rest)

/-- Python `s.split(sep)[1]`: the second field of an unbounded split; `none`
when there are fewer than two fields. -/
def pySplitSecond (s sep : String) : Option String :=
  match s.splitOn sep with
  | _ :: x :: _ => some x
  | _ => none

/-- The per-item result dictionary of both fetchers (`PlexItemDetails.to_dict`
in `utilities/watchlist/fetcher.py`; the literal dicts of
`utilities/plex_watchlist/fetcher.py` have the same keys).  `α` is the type of
the opaque `original_plex_item` back-reference. -/
structure PlexItemDetails (α : Type) where
  imdb_id : Option String
  tmdb_id : Option String
  media_type : Option String
  original_plex_item : α
  error : Option String
deriving DecidableEq

/-- The fate of one HTTP request in `utilities/watchlist/fetcher.py`:
a timeout, some other exception (with its `str(e)` message), or a response
with a status code and a body.  A body of `none` is unparsable text
(`ET.fromstring` raises `ParseError`, which that file's extractor catches). -/
inductive HttpOutcome : Type where
  | timeout
  | exn (msg : String)
  | ok (status : Nat) (body : Option XmlElem)

namespace Watchlist

/-- `PlexMetadataExtractor._extract_guid_ids`: scan the `Guid` children; an
`imdb://` prefix assigns the imdb id, a `tmdb://` prefix the tmdb id (the last
matching `Guid` of each kind wins), anything else is ignored. -/
def extract_guid_ids (media : XmlElem) : Option String × Option String :=
  (media.children.filter (fun c => c.tag == ("Guid"))).foldl
    (fun acc g =>
      match g.getAttr ("id") with
      | none => acc
      | some gs =>
        if gs == "" then acc
        else if gs.startsWith ("imdb://") then (pySplitOnceTail gs ("//"), acc.2)
        else if gs.startsWith ("tmdb://") then (acc.1, pySplitOnceTail gs ("//"))
        else acc)
    (none, none)

/-- `PlexMetadataExtractor._find_media_element`: `None` unless the root is a
`MediaContainer`; otherwise the first `Video` child, falling back (by an
`is None` check) to the first `Directory` child. -/
def find_media_element (root : XmlElem) : Option XmlElem :=
  if root.tag == ("MediaContainer") then
    match root.findChild ("Video") with
    | some v => some v
    | none => root.findChild ("Directory")
  else none

/-- `PlexMetadataExtractor.extract_ids_from_xml`.  A `none` body models text
that `ET.fromstring` rejects (the `except ET.ParseError` branch).  The guard
`if not media_element` uses Python element truthiness, so a found media
element with no children is also treated as absent. -/
def extract_ids_from_xml (body : Option XmlElem) :
    Option String × Option String × Option String :=
  match body with
  | none => (none, none, none)
  | some root =>
    match find_media_element root with
    | none => (none, none, none)
    | some m =>
      if m.children.isEmpty then (none, none, none)
      else ((extract_guid_ids m).1, (extract_guid_ids m).2, m.getAttr ("type"))

/-- `fetch_item_details_and_extract_ids` of `utilities/watchlist/fetcher.py`.
Every failure mode returns a result dictionary; nothing propagates. -/
def fetch_item_details_and_extract_ids (o : HttpOutcome) (orig : α) :
    PlexItemDetails α :=
  match o with
  | .timeout => ⟨none, none, none, orig, some ("Timeout")⟩
  | .exn msg => ⟨none, none, none, orig, some msg⟩
  | .ok status body =>
    if status != 200 then
      ⟨none, none, none, orig, some (("HTTP") ++ toString status)⟩
    else
      if (extract_ids_from_xml body).1.isNone &&
          (extract_ids_from_xml body).2.1.isNone then
        ⟨none, none, none, orig, some ("XMLParseError")⟩
      else
        ⟨(extract_ids_from_xml body).1, (extract_ids_from_xml body).2.1,
         (extract_ids_from_xml body).2.2, orig, none⟩

/-- `run_async_fetches`: `asyncio.gather` over one fetch task per input item.
`gather` returns the results positionally, one per task; each item is paired
with its request's fate. -/
def run_async_fetches (items : List (α × HttpOutcome)) : List (PlexItemDetails α) :=
  items.map (fun p => fetch_item_details_and_extract_ids p.2 p.1)

end Watchlist

namespace PlexWL

/-- The fate of one request in `utilities/plex_watchlist/fetcher.py`.  In that
file `ET.fromstring` runs inside the outer `try`, so an unparsable 200-body is
caught by the generic `except Exception` like any network error; hence `ok`
carries an already-parsed root element and malformed bodies are `exn` cases. -/
inductive Outcome : Type where
  | timeout
  | exn (msg : String)
  | ok (status : Nat) (body : XmlElem)

/-- The media-element selection of lines 26-32: start from `None`; if the root
is a `MediaContainer` take `./Video`, and if that is falsy (absent or
childless, Python truthiness) take `./Directory` instead. -/
def find_media (body : XmlElem) : Option XmlElem :=
  if body.tag == ("MediaContainer") then
    let v := body.findChild ("Video")
    if !(elemTruthy v) then body.findChild ("Directory") else v
  else none

/-- The `Guid` loop of lines 46-52 (`split("//")[1]`, without a maxsplit). -/
def extract_guid_ids (media : XmlElem) : Option String × Option String :=
  (media.children.filter (fun c => c.tag == ("Guid"))).foldl
    (fun acc g =>
      match g.getAttr ("id") with
      | none => acc
      | some gs =>
        if gs == "" then acc
        else if gs.startsWith ("imdb://") then (pySplitSecond gs ("//"), acc.2)
        else if gs.startsWith ("tmdb://") then (acc.1, pySplitSecond gs ("//"))
        else acc)
    (none, none)

/-- `fetch_item_details_and_extract_ids` of `utilities/plex_watchlist/fetcher.py`.
Note that on the success path the returned dict has no `error` key even when
both identifiers are `None`. -/
def fetch_item_details_and_extract_ids (o : Outcome) (orig : α) :
    PlexItemDetails α :=
  match o with
  | .timeout => ⟨none, none, none, orig, some ("Timeout")⟩
  | .exn msg => ⟨none, none, none, orig, some msg⟩
  | .ok status body =>
    if status == 200 then
      match find_media body with
      | none => ⟨none, none, none, orig, some ("XMLParseError")⟩
      | some m =>
        if m.children.isEmpty then
          ⟨none, none, none, orig, some ("XMLParseError")⟩
        else
          ⟨(extract_guid_ids m).1, (extract_guid_ids m).2,
           m.getAttr ("type"), orig, none⟩
    else ⟨none, none, none, orig, some (("HTTP") ++ toString status)⟩

/-- One step of `WatchlistFetcher`'s observable request schedule: a concurrent
batch of requests, or the fixed one-unit `asyncio.sleep(1)` pause. -/
inductive FetchEvent (α : Type) where
  | batch (items : List α)
  | pause
deriving DecidableEq

/-- The batches issued by `_fetch_in_batches`: the loop
`for i in range(0, len(items), batch_size)` takes the slice
`items[i : i + batch_size]` on each iteration, i.e. `ceil(n / bs)` chunks. -/
def fetchBatches (bs : Nat) (items : List α) : List (List α) :=
  (List.range ((items.length + bs - 1) / bs)).map
    (fun k => (items.drop (k * bs)).take bs)

/-- `_fetch_in_batches` as an event schedule: after each batch except the last
(`if batch_num < total_batches`) the loop sleeps one unit, i.e. the pause is
interspersed between consecutive batches. -/
def fetch_in_batches (bs : Nat) (items : List α) : List (FetchEvent α) :=
  List.intersperse FetchEvent.pause ((fetchBatches bs items).map FetchEvent.batch)

/-- `WatchlistFetcher.fetch_all` as an event schedule: empty input returns at
once; more than 500 items are processed via `_fetch_in_batches`; otherwise
`_fetch_directly` gathers everything as a single batch with no pause. -/
def fetch_all (bs : Nat) (items : List α) : List (FetchEvent α) :=
  if items.isEmpty then []
  else if 500 < items.length then fetch_in_batches bs items
  else [FetchEvent.batch items]

end PlexWL

/-- A Plex watchlist item as seen by the cache key derivation: `none` models a
missing attribute or a `None` value (both are rejected the same way by the
`hasattr`-and-truthiness checks). `itemType` renders the item's `type`
attribute. -/
structure PlexItem where
  guid : Option String
  title : Option String
  itemType : Option String
deriving DecidableEq

/-- A cache value (`utilities/plex_watchlist/detail_cache.py`).  `cached_at`
is an abstract `Nat` timestamp (the ISO string in the source; ISO strings
compare chronologically, so `Nat` order is faithful), `none` when the record
has no `cached_at` key. -/
structure CacheEntry where
  imdb_id : Option String
  tmdb_id : Option String
  media_type : Option String
  error : Option String
  cached_at : Option Nat
deriving DecidableEq

/-- In-memory state of `PlexDetailCache`.  The store is an association list
with (invariantly) pairwise-distinct keys, mirroring a Python dict in
insertion order; `max_age` is in the same abstract time units as `cached_at`
timestamps. The persistence file is not modelled (load/commit are I/O). -/
structure PlexDetailCache where
  cache : List (String × CacheEntry)
  max_age : Nat
  max_entries : Nat
  hits : Nat
  misses : Nat
deriving DecidableEq

/-- The `type:title` fallback of `_make_cache_key` (requires both attributes
to be present, with no truthiness check on their values). -/
def fallback_cache_key (item : PlexItem) : Option String :=
  match item.itemType, item.title with
  | some t, some ti => some (t ++ (":") ++ ti)
  | _, _ => none

/-- `PlexDetailCache._make_cache_key`: the guid when present and truthy,
otherwise the `type:title` fallback, otherwise `None`. -/
def _make_cache_key (item : PlexItem) : Option String :=
  match item.guid with
  | some g => if g != "" then some g else fallback_cache_key item
  | none => fallback_cache_key item

/-- Dict lookup on the store: the entry under key `k`, if any. -/
def lookupEntry (store : List (String × CacheEntry)) (k : String) : Option CacheEntry :=
  (store.find? (fun p => p.1 == k)).map Prod.snd

namespace PlexDetailCache

/-- The eviction sort key of `set`: `entry.get("cached_at", "")`, where the
empty string (no timestamp) sorts before every ISO timestamp; modelled as
`Nat` with `none ↦ 0`. -/
def sortKey (e : CacheEntry) : Nat := e.cached_at.getD 0

/-- The comparison used to sort the store's keys by `cached_at` (Python
`sorted` is a stable sort, as is `List.mergeSort`). -/
def cacheLe (p q : String × CacheEntry) : Bool := sortKey p.2 ≤ sortKey q.2

/-- Lines 81-88 of `set`: when the store has reached `max_entries`, delete the
first `max(1, max_entries // 10)` keys in `cached_at` order. -/
def evictIfFull (store : List (String × CacheEntry)) (maxE : Nat) :
    List (String × CacheEntry) :=
  if maxE ≤ store.length then
    store.filter (fun p =>
      decide (p.1 ∉ ((store.mergeSort cacheLe).take (max 1 (maxE / 10))).map Prod.fst))
  else store

/-- Dict assignment `self.cache[k] = e`: overwrite in place when the key
exists, else append. -/
def insertPair (store : List (String × CacheEntry)) (k : String) (e : CacheEntry) :
    List (String × CacheEntry) :=
  if store.any (fun p => p.1 == k) then
    store.map (fun p => if p.1 == k then (k, e) else p)
  else store ++ [(k, e)]

/-- `PlexDetailCache.set(item, details)` at time `now`: no-op on an invalid
key; otherwise evict under capacity pressure, stamp `cached_at := now`
(overwriting any caller-supplied value), and insert. -/
def set (c : PlexDetailCache) (now : Nat) (item : PlexItem) (details : CacheEntry) :
    PlexDetailCache :=
  match _make_cache_key item with
  | none => c
  | some k =>
    let stamped : CacheEntry := {details with cached_at := some now}
    {c with cache := insertPair (evictIfFull c.cache c.max_entries) k stamped}

/-- `PlexDetailCache.get(item)` at time `now`: returns the entry when present
with a `cached_at` strictly younger than `max_age`; an expired or
timestamp-less entry is deleted (`del self.cache[key]`) and the call is a
miss.  The comparison `datetime.now() - cached_time < self.max_age` is taken
over `Int` so that a future-dated entry is a hit, as in the source. -/
def get (c : PlexDetailCache) (now : Nat) (item : PlexItem) :
    Option CacheEntry × PlexDetailCache :=
  match _make_cache_key item with
  | none => (none, {c with misses := c.misses + 1})
  | some k =>
    match lookupEntry c.cache k with
    | some e =>
      match e.cached_at with
      | some t =>
        if (now : Int) - (t : Int) < (c.max_age : Int) then
          (some e, {c with hits := c.hits + 1})
        else
          (none, {c with cache := c.cache.filter (fun p => p.1 != k),
                         misses := c.misses + 1})
      | none =>
        (none, {c with cache := c.cache.filter (fun p => p.1 != k),
                       misses := c.misses + 1})
    | none => (none, {c with misses := c.misses + 1})

end PlexDetailCache

namespace Coordinator

/-- The `cache_entry` dict built in `_fetch_and_cache_items` from a fetched
result (no `cached_at` key; `set` stamps it). -/
def entryOf (d : PlexItemDetails PlexItem) : CacheEntry :=
  ⟨d.imdb_id, d.tmdb_id, d.media_type, d.error, none⟩

/-- `WatchlistFetchCoordinator._fetch_and_cache_items` at time `now`: run the
async fetches, then `cache.set` each result (success or error alike) under its
originating item, and return the fetched list.  `commit()` is disk I/O and is
not modelled. -/
def _fetch_and_cache_items (now : Nat) (c : PlexDetailCache)
    (items : List (PlexItem × HttpOutcome)) :
    List (PlexItemDetails PlexItem) × PlexDetailCache :=
  let fetched := Watchlist.run_async_fetches items
  (fetched, fetched.foldl (fun acc d => acc.set now d.original_plex_item (entryOf d)) c)

/-- One cache write of the loop in `_fetch_and_cache_items`, phrased over the
originating request (the fetched result of `(item, outcome)` carries `item`
as its `original_plex_item`). -/
def cacheStep (now : Nat) (acc : PlexDetailCache) (p : PlexItem × HttpOutcome) :
    PlexDetailCache :=
  acc.set now p.1 (entryOf (Watchlist.fetch_item_details_and_extract_ids p.2 p.1))

end Coordinator

/-- A fetched watchlist item as consumed by the processing loops: the result
dictionary fields together with the attributes of `original_plex_item` the
loops read (`title`, `type`) and the fate of a watchlist-removal call for this
item (`removal_succeeds = false` models `removeFromWatchlist` raising). -/
structure FetchedItem where
  title : String
  itemType : String
  imdb_id : Option String
  tmdb_id : Option String
  media_type : Option String
  error : Option String
  removal_succeeds : Bool
deriving DecidableEq

/-- A wanted-list entry (`{"imdb_id": ..., "media_type": ...,
"content_source_detail": ...}`). -/
structure WantedItem where
  imdb_id : String
  media_type : String
  content_source_detail : String
deriving DecidableEq

/-- `item_details["media_type"] or original_plex_item.type` (Python `or`:
first operand unless falsy). -/
def effective_media_type (it : FetchedItem) : String :=
  match it.media_type with
  | some m => if m != "" then m else it.itemType
  | none => it.itemType

/-- Lines 87-94 of `_process_single_item` (identical to lines 291-302 of
`content_checkers/plex_watchlist.py`): keep a truthy `imdb_id`; otherwise,
when `tmdb_id` and the media type are truthy, try the external conversion and
adopt its result when truthy.  `conv` abstracts `tmdb_to_imdb` (first tuple
component; `None` on any failure). -/
def resolved_imdb (conv : String → String → Option String) (it : FetchedItem) :
    Option String :=
  if pyTruthy it.imdb_id then it.imdb_id
  else
    match it.tmdb_id with
    | some tm =>
      if tm != "" && effective_media_type it != "" then
        match conv tm (effective_media_type it) with
        | some cid => if cid != "" then some cid else it.imdb_id
        | none => it.imdb_id
      else it.imdb_id
    | none => it.imdb_id

namespace ItemProcessor

/-- Configuration and external collaborators of `WatchlistItemProcessor`:
the two settings flags, the username, the batched presence map (read as
`presence_map.get(imdb_id, "Not Found")`), the Trakt show-status lookup
(total: `_get_show_status` returns `""` on any error), and the TMDB-to-IMDB
conversion service. -/
structure Env where
  removal_enabled : Bool
  keep_series : Bool
  username : String
  presence_map : String → String
  show_status : String → String
  tmdb_to_imdb : String → String → Option String

/-- Per-item counter deltas of a `_process_single_item` call. -/
structure StatsDelta where
  skipped : Nat
  removed : Nat
  collected_kept : Nat
deriving DecidableEq

/-- `WatchlistItemProcessor._normalize_media_type`. -/
def _normalize_media_type (media_type : String) : String :=
  if media_type == ("show") then ("tv") else media_type

/-- `WatchlistItemProcessor._should_remove_item`. -/
def _should_remove_item (env : Env) (item_state media_type imdb_id : String) : Bool :=
  if item_state != "Collected" || !env.removal_enabled then false
  else if media_type == "tv" then
    if env.keep_series then false
    else if env.show_status imdb_id != "ended" then false
    else true
  else true

/-- `WatchlistItemProcessor._process_single_item`: the returned wanted item
(or `none`) and the counter deltas.  Note the control flow on a failed
removal: the outer `if` was taken, its inner `if` fails, the `elif` is
skipped, and execution falls through to build and return the wanted item. -/
def _process_single_item (env : Env) (it : FetchedItem) :
    Option WantedItem × StatsDelta :=
  if pyTruthy it.error then (none, ⟨1, 0, 0⟩)
  else
    match resolved_imdb env.tmdb_to_imdb it with
    | none => (none, ⟨1, 0, 0⟩)
    | some imdb_s =>
      if imdb_s == "" then (none, ⟨1, 0, 0⟩)
      else
        if _should_remove_item env (env.presence_map imdb_s)
            (_normalize_media_type (effective_media_type it)) imdb_s then
          if it.removal_succeeds then (none, ⟨0, 1, 0⟩)
          else
            (some ⟨imdb_s, _normalize_media_type (effective_media_type it),
              env.username⟩, ⟨0, 0, 0⟩)
        else if env.presence_map imdb_s == "Collected" && env.removal_enabled then
          (some ⟨imdb_s, _normalize_media_type (effective_media_type it),
            env.username⟩, ⟨0, 0, 1⟩)
        else
          (some ⟨imdb_s, _normalize_media_type (effective_media_type it),
            env.username⟩, ⟨0, 0, 0⟩)

/-- `WatchlistItemProcessor.process_items`: collect the wanted items and sum
the counters (the batched presence query is abstracted into
`env.presence_map`). -/
def process_items (env : Env) (items : List FetchedItem) :
    List WantedItem × StatsDelta :=
  let rs := items.map (_process_single_item env)
  (rs.filterMap Prod.fst,
   rs.foldl
     (fun a r =>
       ⟨a.skipped + r.2.skipped, a.removed + r.2.removed,
        a.collected_kept + r.2.collected_kept⟩)
     ⟨0, 0, 0⟩)

end ItemProcessor

namespace Main

/-- Settings and collaborators of `get_wanted_from_plex_watchlist`
(`content_checkers/plex_watchlist.py`): the two Debug flags, the account
username, `get_media_item_presence`, `get_show_status` (total, `""` on error,
`canceled` already mapped to `ended`), and `tmdb_to_imdb`. -/
structure Env where
  should_remove : Bool
  keep_series : Bool
  username : String
  presence : String → String
  show_status : String → String
  tmdb_to_imdb : String → String → Option String

/-- One iteration of the loop at lines 280-363: the wanted item appended (if
any) and whether the item was removed from the remote watchlist.  A failed
removal logs and falls through to the append. -/
def loop_item (env : Env) (it : FetchedItem) : Option WantedItem × Bool :=
  if pyTruthy it.error then (none, false)
  else
    match resolved_imdb env.tmdb_to_imdb it with
    | none => (none, false)
    | some imdb_s =>
      if imdb_s == "" then (none, false)
      else
        let media_type :=
          if effective_media_type it == "show" then ("tv") else effective_media_type it
        let wanted : WantedItem := ⟨imdb_s, media_type, env.username⟩
        let attempt_removal : Option WantedItem × Bool :=
          if it.removal_succeeds then (none, true) else (some wanted, false)
        if env.presence imdb_s == "Collected" && env.should_remove then
          if media_type == "tv" then
            if env.keep_series then (none, false)
            else if env.show_status imdb_s != "ended" then (none, false)
            else attempt_removal
          else attempt_removal
        else (some wanted, false)

/-- The wanted items the loop accumulates in
`processed_items_for_current_run`. -/
def loop_wanted (env : Env) (items : List FetchedItem) : List WantedItem :=
  (items.map (loop_item env)).filterMap Prod.fst

/-- The items the loop successfully removes from the remote watchlist. -/
def loop_removed (env : Env) (items : List FetchedItem) : List FetchedItem :=
  (items.filter (fun it => (loop_item env it).2))

/-- Observable outcome of one `get_wanted_from_plex_watchlist` run: the
returned value and the remote-watchlist removals performed during the run. -/
structure RunResult (V : Type) where
  result : List (List WantedItem × V)
  removals : List FetchedItem

/-- `get_wanted_from_plex_watchlist` over the per-item detail records the
coordinator hands to the loop (items the coordinator drops merely shrink the
loop's input).  An empty initial watchlist returns `[([], versions)]` at line
258.  Otherwise the loop runs to completion, and then the summary logging at
line 372 evaluates `len(items_to_process_async)`: that name is defined
nowhere in the function or module, so the f-string raises `NameError`, the
enclosing `except Exception` (line 391) catches it, and the function returns
`[([], versions)]` — the accumulated wanted items are discarded, while the
removals already performed against the remote service stand. -/
def get_wanted_from_plex_watchlist (env : Env) (versions : V)
    (initial_watchlist : List FetchedItem) : RunResult V :=
  if initial_watchlist.isEmpty then ⟨[([], versions)], []⟩
  else ⟨[([], versions)], loop_removed env initial_watchlist⟩

/-- `DB_CONTENT_DIR` with its environment-variable fallback value. -/
def DB_CONTENT_DIR : String := "/user/db_content"

/-- `DETAIL_CACHE_FILE` (line 130): the main account's detail-cache path. -/
def DETAIL_CACHE_FILE : String := DB_CONTENT_DIR ++ ("/plex_detail_cache.json")

/-- `other_detail_cache_file` (lines 445-447): the per-user path computed in
`get_wanted_from_other_plex_watchlist`. -/
def other_detail_cache_file (username : String) : String :=
  DB_CONTENT_DIR ++ ("/plex_detail_cache_") ++ username ++ (".json")

/-- The `cache_file` argument actually passed to `PlexDetailCache` at line
449 of `get_wanted_from_other_plex_watchlist`: the code constructs
`PlexDetailCache(DETAIL_CACHE_FILE, max_age_days=30)`, not using the per-user
path it just computed. -/
def other_watchlist_cache_file_used (username : String) : String :=
  DETAIL_CACHE_FILE

end Main

/-! Concrete instances used to instantiate the theorems below. -/

/-- A processor environment: removal enabled, series not kept, everything
reported as already collected, conversion unavailable. -/
def envC : ItemProcessor.Env :=
  { removal_enabled := true, keep_series := false, username := ("main"),
    presence_map := fun _ => ("Collected"), show_status := fun _ => (""),
    tmdb_to_imdb := fun _ _ => none }

/-- A collected movie whose remote watchlist-removal call fails. -/
def itemFailingRemoval : FetchedItem :=
  { title := ("The Shawshank Redemption"), itemType := ("movie"),
    imdb_id := some ("tt0111161"), tmdb_id := none,
    media_type := some ("movie"), error := none, removal_succeeds := false }

/-- A show item, not collected anywhere, with a resolved id. -/
def itemShowKept : FetchedItem :=
  { title := ("The Wire"), itemType := ("show"),
    imdb_id := some ("tt0306414"), tmdb_id := none,
    media_type := some ("show"), error := none, removal_succeeds := true }

/-- A processor environment with removal disabled (every item is kept). -/
def envNoRemoval : ItemProcessor.Env :=
  { removal_enabled := false, keep_series := false, username := ("main"),
    presence_map := fun _ => ("Not Found"), show_status := fun _ => (""),
    tmdb_to_imdb := fun _ _ => none }

/-- A main-loop environment: removal enabled, only `tt0111161` collected. -/
def envMain : Main.Env :=
  { should_remove := true, keep_series := false, username := ("main"),
    presence := fun s => if s == ("tt0111161") then ("Collected") else ("Not Found"),
    show_status := fun _ => (""), tmdb_to_imdb := fun _ _ => none }

/-- A collected movie whose removal call succeeds. -/
def itemRemovedOk : FetchedItem :=
  { title := ("The Shawshank Redemption"), itemType := ("movie"),
    imdb_id := some ("tt0111161"), tmdb_id := none,
    media_type := some ("movie"), error := none, removal_succeeds := true }

/-- A movie that is not collected, so it becomes a wanted item. -/
def itemWantedMovie : FetchedItem :=
  { title := ("The Dark Knight"), itemType := ("movie"),
    imdb_id := some ("tt0468569"), tmdb_id := none,
    media_type := some ("movie"), error := none, removal_succeeds := true }

/-- An XML document whose root is not a `MediaContainer`. -/
def badRoot : XmlElem := .node ("html") [] []

/-- A well-formed metadata response: a `MediaContainer` holding one `Video`
with an imdb `Guid`. -/
def goodRoot : XmlElem :=
  .node ("MediaContainer") []
    [.node ("Video") [(("type"), ("movie"))]
      [.node ("Guid") [(("id"), ("imdb://tt0111161"))] []]]

/-- A three-request batch mixing a timeout, a success and an HTTP failure. -/
def itemsMixed : List (String × HttpOutcome) :=
  [(("a"), HttpOutcome.timeout),
   (("b"), HttpOutcome.ok 200 (some goodRoot)),
   (("c"), HttpOutcome.ok 500 none)]

/-! Theorems. -/

/-- The fetcher always hands back the originating item unchanged. -/
theorem fetch_original {α : Type} (o : HttpOutcome) (x : α) :
    (Watchlist.fetch_item_details_and_extract_ids o x).original_plex_item = x := by
  cases o with
  | timeout => rfl
  | exn m => rfl
  | ok s b =>
    simp only [Watchlist.fetch_item_details_and_extract_ids]
    split
    · rfl
    · split <;> rfl

/-- Every single fetch result is either a success carrying at least one
identifier, or an error-tagged result carrying none. -/
theorem fetch_result_shape {α : Type} (o : HttpOutcome) (x : α) :
    ((Watchlist.fetch_item_details_and_extract_ids o x).error = none ∧
      ((Watchlist.fetch_item_details_and_extract_ids o x).imdb_id ≠ none ∨
       (Watchlist.fetch_item_details_and_extract_ids o x).tmdb_id ≠ none)) ∨
    ((Watchlist.fetch_item_details_and_extract_ids o x).error ≠ none ∧
     (Watchlist.fetch_item_details_and_extract_ids o x).imdb_id = none ∧
     (Watchlist.fetch_item_details_and_extract_ids o x).tmdb_id = none) := by
  cases o with
  | timeout => right; exact ⟨by simp [Watchlist.fetch_item_details_and_extract_ids], rfl, rfl⟩
  | exn m => right; exact ⟨by simp [Watchlist.fetch_item_details_and_extract_ids], rfl, rfl⟩
  | ok s b =>
    simp only [Watchlist.fetch_item_details_and_extract_ids]
    split
    · right; simp
    · split
      · right; simp
      · left
        refine ⟨rfl, ?_⟩
        rename_i hcond
        rw [Bool.and_eq_true, Option.isNone_iff_eq_none, Option.isNone_iff_eq_none]
          at hcond
        rw [not_and_or] at hcond
        exact hcond

/-- Every wanted item `_process_single_item` returns carries the normalized
media type of its input. -/
theorem process_single_item_media_type (env : ItemProcessor.Env)
    (it : FetchedItem) (w : WantedItem)
    (h : (ItemProcessor._process_single_item env it).1 = some w) :
    w.media_type = ItemProcessor._normalize_media_type (effective_media_type it) := by
  unfold ItemProcessor._process_single_item at h
  split at h
  · simp at h
  · split at h
    · simp at h
    · split at h
      · simp at h
      · split at h
        · split at h
          · simp at h
          · simp only [Option.some.injEq] at h
            rw [← h]
        · split at h <;>
          · simp only [Option.some.injEq] at h
            rw [← h]

/-- C8: for every batch of fetch requests with any pattern of per-item fates,
`run_async_fetches` returns exactly one result per request, positionally
matched to its originating item, each either a success carrying identifiers or
an error-tagged result carrying none; no failure aborts siblings or drops an
item. -/
theorem c8_per_item_isolation {α : Type} (items : List (α × HttpOutcome)) :
    (Watchlist.run_async_fetches items).length = items.length ∧
    (Watchlist.run_async_fetches items).map
      (fun r => r.original_plex_item) = items.map Prod.fst ∧
    ∀ r ∈ Watchlist.run_async_fetches items,
      (r.error = none ∧ (r.imdb_id ≠ none ∨ r.tmdb_id ≠ none)) ∨
      (r.error ≠ none ∧ r.imdb_id = none ∧ r.tmdb_id = none) := by
  refine ⟨by simp [Watchlist.run_async_fetches], ?_, ?_⟩
  · simp [Watchlist.run_async_fetches, List.map_map, Function.comp_def, fetch_original]
  · intro r hr
    rw [Watchlist.run_async_fetches, List.mem_map] at hr
    obtain ⟨p, _, rfl⟩ := hr
    exact fetch_result_shape p.2 p.1

/-- C8, instantiated at the mixed three-request batch: three results, and the
HTTP-500 result is error-tagged with no identifiers. -/
theorem c8_per_item_isolation_witness :
    (Watchlist.run_async_fetches itemsMixed).length = 3 ∧
    (((Watchlist.fetch_item_details_and_extract_ids
        (HttpOutcome.ok 500 none) (("c"))).error = none ∧
      ((Watchlist.fetch_item_details_and_extract_ids
        (HttpOutcome.ok 500 none) (("c"))).imdb_id ≠ none ∨
       (Watchlist.fetch_item_details_and_extract_ids
        (HttpOutcome.ok 500 none) (("c"))).tmdb_id ≠ none)) ∨
     ((Watchlist.fetch_item_details_and_extract_ids
        (HttpOutcome.ok 500 none) (("c"))).error ≠ none ∧
      (Watchlist.fetch_item_details_and_extract_ids
        (HttpOutcome.ok 500 none) (("c"))).imdb_id = none ∧
      (Watchlist.fetch_item_details_and_extract_ids
        (HttpOutcome.ok 500 none) (("c"))).tmdb_id = none)) :=
  ⟨(c8_per_item_isolation itemsMixed).1,
   (c8_per_item_isolation itemsMixed).2.2 _
     (by simp [Watchlist.run_async_fetches, itemsMixed])⟩

/-- The batch count of `_fetch_in_batches` is the loop's `total_batches`. -/
theorem length_fetchBatches {α : Type} (bs : Nat) (items : List α) :
    (PlexWL.fetchBatches bs items).length = (items.length + bs - 1) / bs := by
  simp [PlexWL.fetchBatches]

/-- Each batch of `_fetch_in_batches` with chunk size 100 is a non-empty slice
of at most 100 items. -/
theorem mem_fetchBatches_size {α : Type} (items : List α) :
    ∀ b ∈ PlexWL.fetchBatches 100 items, 0 < b.length ∧ b.length ≤ 100 := by
  intro b hb
  rw [PlexWL.fetchBatches, List.mem_map] at hb
  obtain ⟨k, hk, rfl⟩ := hb
  rw [List.mem_range] at hk
  constructor
  · simp only [List.length_take, List.length_drop]
    omega
  · simp only [List.length_take, List.length_drop]
    omega

/-- Concatenating consecutive 100-chunks of a list reproduces the list. -/
theorem flatten_chunks {α : Type} :
    ∀ (n : Nat) (items : List α), items.length ≤ n * 100 →
      ((List.range n).map (fun k => (items.drop (k * 100)).take 100)).flatten
        = items := by
  intro n
  induction n with
  | zero =>
    intro items h
    simp only [Nat.zero_mul, Nat.le_zero] at h
    simp [List.length_eq_zero.mp h]
  | succ n ih =>
    intro items h
    rw [List.range_succ_eq_map, List.map_cons, List.flatten_cons, List.map_map]
    have hfun : ∀ k ∈ List.range n,
        ((fun k => (items.drop (k * 100)).take 100) ∘ Nat.succ) k
          = (fun k => (((items.drop 100).drop (k * 100)).take 100)) k := by
      intro k _
      simp only [Function.comp_apply]
      rw [List.drop_drop]
      have : Nat.succ k * 100 = 100 + k * 100 := by omega
      rw [this, Nat.add_comm]
    rw [List.map_congr_left hfun]
    rw [ih (items.drop 100) (by simp only [List.length_drop]; omega)]
    simp [List.take_append_drop]

/-- The batches of `_fetch_in_batches` (chunk size 100) partition the input
in order. -/
theorem flatten_fetchBatches {α : Type} (items : List α) :
    (PlexWL.fetchBatches 100 items).flatten = items := by
  rw [PlexWL.fetchBatches]
  exact flatten_chunks ((items.length + 100 - 1) / 100) items (by omega)

/-- C9: with the default chunk size 100, more than 500 requests are processed
as `ceil(n/100)` sequential non-empty batches of at most 100 covering the
input in order, with the one-unit pause interspersed between consecutive
batches and not after the last; at most 500 requests are processed as a single
batch with no pause (an empty request list issues nothing at all). -/
theorem c9_batching {α : Type} (items : List α) :
    (items = [] → PlexWL.fetch_all 100 items = []) ∧
    (items ≠ [] → items.length ≤ 500 →
      PlexWL.fetch_all 100 items = [PlexWL.FetchEvent.batch items]) ∧
    (500 < items.length →
      PlexWL.fetch_all 100 items =
        List.intersperse PlexWL.FetchEvent.pause
          ((PlexWL.fetchBatches 100 items).map PlexWL.FetchEvent.batch) ∧
      (PlexWL.fetchBatches 100 items).length = (items.length + 99) / 100 ∧
      (∀ b ∈ PlexWL.fetchBatches 100 items, 0 < b.length ∧ b.length ≤ 100) ∧
      (PlexWL.fetchBatches 100 items).flatten = items) := by
  refine ⟨?_, ?_, ?_⟩
  · intro h
    rw [h]
    rfl
  · intro h1 h2
    unfold PlexWL.fetch_all
    rw [if_neg (by simpa using h1), if_neg (by omega)]
  · intro h
    have h1 : items ≠ [] := by
      intro hnil
      rw [hnil] at h
      simp at h
    refine ⟨?_, ?_, mem_fetchBatches_size items, flatten_fetchBatches items⟩
    · unfold PlexWL.fetch_all
      rw [if_neg (by simpa using h1), if_pos h]
      rfl
    · rw [length_fetchBatches]
      omega

/-- C9, instantiated: 1200 requests make exactly 12 batches, and a single
request is processed as one batch with no pause. -/
theorem c9_batching_witness :
    (PlexWL.fetchBatches 100 (List.replicate 1200 (0 : Nat))).length = 12 ∧
    PlexWL.fetch_all 100 [(0 : Nat)] = [PlexWL.FetchEvent.batch [0]] := by
  constructor
  · rw [((c9_batching (List.replicate 1200 (0 : Nat))).2.2
      (by rw [List.length_replicate]; omega)).2.1]
    rw [List.length_replicate]
  · exact (c9_batching [(0 : Nat)]).2.1 (by decide) (by decide)

/-- C5: `get_wanted_from_other_plex_watchlist` constructs its `PlexDetailCache`
with the main account's `DETAIL_CACHE_FILE` for every username, although the
per-user path `other_detail_cache_file` it computes two lines earlier (and
never uses) is distinct from the main path. -/
theorem c5_other_watchlist_uses_main_cache_file :
    (∀ username : String,
      Main.other_watchlist_cache_file_used username = Main.DETAIL_CACHE_FILE) ∧
    Main.DETAIL_CACHE_FILE ≠ Main.other_detail_cache_file ("alice") := by
  refine ⟨fun _ => rfl, ?_⟩
  decide

/-- C3 counterexample: `_normalize_media_type` maps the provider's "show"
type to "tv", not to "series" as the claim states. -/
theorem c3_counterexample :
    ItemProcessor._normalize_media_type ("show") = ("tv") ∧
    ItemProcessor._normalize_media_type ("show") ≠ ("series") := by
  refine ⟨rfl, ?_⟩
  decide

/-- C3 amended: for a processed item with no fetch error and a resolved
primary id, the media type is normalized by mapping "show" to the pipeline's
canonical "tv" type, every other type passing through unchanged; a kept
"show" item yields a wanted item whose `media_type` is "tv". -/
theorem c3_amended :
    (∀ mt : String, mt ≠ ("show") → ItemProcessor._normalize_media_type mt = mt) ∧
    ItemProcessor._normalize_media_type ("show") = ("tv") ∧
    (∀ (env : ItemProcessor.Env) (it : FetchedItem) (w : WantedItem),
      effective_media_type it = ("show") →
      (ItemProcessor._process_single_item env it).1 = some w →
      w.media_type = ("tv")) := by
  refine ⟨?_, rfl, ?_⟩
  · intro mt h
    simp [ItemProcessor._normalize_media_type, h]
  · intro env it w hmt h
    rw [process_single_item_media_type env it w h, hmt]
    rfl

/-- C3 amended, instantiated: "movie" passes through unchanged, and the kept
concrete "show" item yields a wanted item with media type "tv". -/
theorem c3_amended_witness :
    ItemProcessor._normalize_media_type ("movie") = ("movie") ∧
    (WantedItem.mk ("tt0306414") ("tv") ("main")).media_type = ("tv") :=
  ⟨c3_amended.1 ("movie") (by decide),
   c3_amended.2.2 envNoRemoval itemShowKept (WantedItem.mk ("tt0306414") ("tv") ("main")) rfl rfl⟩

/-- C2 counterexample: a collected movie that the removal policy judges
removable, whose watchlist-removal call fails, is not dropped from the run's
output — `process_items` returns it in the wanted list. -/
theorem c2_counterexample :
    ItemProcessor._should_remove_item envC ("Collected") ("movie") ("tt0111161") = true ∧
    itemFailingRemoval.removal_succeeds = false ∧
    (ItemProcessor.process_items envC [itemFailingRemoval]).1 =
      [⟨("tt0111161"), ("movie"), ("main")⟩] := by
  refine ⟨rfl, rfl, rfl⟩

/-- C2 amended: when the removal policy judges an item removable but the
watchlist-removal call fails, the failure is logged, the removed counter is
not incremented — and the item is not dropped: it falls through and is
returned as a wanted item. -/
theorem c2_amended (env : ItemProcessor.Env) (it : FetchedItem) (s : String)
    (herr : pyTruthy it.error = false)
    (hres : resolved_imdb env.tmdb_to_imdb it = some s)
    (hs : s ≠ (""))
    (hrem : ItemProcessor._should_remove_item env (env.presence_map s)
      (ItemProcessor._normalize_media_type (effective_media_type it)) s = true)
    (hfail : it.removal_succeeds = false) :
    ItemProcessor._process_single_item env it =
      (some ⟨s, ItemProcessor._normalize_media_type (effective_media_type it),
        env.username⟩, ⟨0, 0, 0⟩) := by
  unfold ItemProcessor._process_single_item
  rw [herr, hres]
  simp [hs, hrem, hfail]

/-- C2 amended, instantiated: the concrete collected movie with a failing
removal call satisfies every hypothesis and is returned as wanted with a zero
removed delta. -/
theorem c2_amended_witness :
    ItemProcessor._process_single_item envC itemFailingRemoval =
      (some ⟨("tt0111161"), ("movie"), ("main")⟩, ⟨0, 0, 0⟩) :=
  c2_amended envC itemFailingRemoval ("tt0111161") rfl rfl (by decide) rfl rfl

/-- C4 counterexample: for a 200 response whose root is not a
`MediaContainer`, the fetcher's error code is "XMLParseError", not the
"ParseError" the claim states. -/
theorem c4_counterexample :
    (Watchlist.fetch_item_details_and_extract_ids
      (HttpOutcome.ok 200 (some badRoot)) (("it"))).error = some ("XMLParseError") ∧
    (Watchlist.fetch_item_details_and_extract_ids
      (HttpOutcome.ok 200 (some badRoot)) (("it"))).error ≠ some ("ParseError") := by
  refine ⟨rfl, ?_⟩
  decide

/-- C4 amended: in both fetchers, a 200 response whose body's root structure
is absent or unrecognized (unparsable body, root not a `MediaContainer`, or no
`Video`/`Directory` media element found) yields a result carrying
`error = "XMLParseError"` and no identifiers; the fetch functions are total,
so nothing is thrown. -/
theorem c4_amended :
    (∀ {α : Type} (orig : α) (body : Option XmlElem),
      (body = none ∨ ∃ root, body = some root ∧
        (root.tag ≠ ("MediaContainer") ∨ Watchlist.find_media_element root = none)) →
      Watchlist.fetch_item_details_and_extract_ids (HttpOutcome.ok 200 body) orig =
        ⟨none, none, none, orig, some ("XMLParseError")⟩) ∧
    (∀ {α : Type} (orig : α) (body : XmlElem),
      (body.tag ≠ ("MediaContainer") ∨ PlexWL.find_media body = none) →
      PlexWL.fetch_item_details_and_extract_ids (PlexWL.Outcome.ok 200 body) orig =
        ⟨none, none, none, orig, some ("XMLParseError")⟩) := by
  constructor
  · intro α orig body h
    have hex : Watchlist.extract_ids_from_xml body = (none, none, none) := by
      rcases h with rfl | ⟨root, rfl, h⟩
      · rfl
      · rcases h with h | h
        · simp [Watchlist.extract_ids_from_xml, Watchlist.find_media_element, h]
        · simp [Watchlist.extract_ids_from_xml, h]
    simp [Watchlist.fetch_item_details_and_extract_ids, hex]
  · intro α orig body h
    have hm : PlexWL.find_media body = none := by
      rcases h with h | h
      · simp [PlexWL.find_media, h]
      · exact h
    simp [PlexWL.fetch_item_details_and_extract_ids, hm]

/-- C4 amended, instantiated at the concrete non-`MediaContainer` root for
both fetchers. -/
theorem c4_amended_witness :
    Watchlist.fetch_item_details_and_extract_ids
      (HttpOutcome.ok 200 (some badRoot)) (("it")) =
        ⟨none, none, none, ("it"), some ("XMLParseError")⟩ ∧
    PlexWL.fetch_item_details_and_extract_ids
      (PlexWL.Outcome.ok 200 badRoot) (("it")) =
        ⟨none, none, none, ("it"), some ("XMLParseError")⟩ :=
  ⟨c4_amended.1 (("it")) (some badRoot)
    (Or.inr ⟨badRoot, rfl, Or.inl (by decide)⟩),
   c4_amended.2 (("it")) badRoot (Or.inl (by decide))⟩

/-- After a dict assignment, looking up the assigned key finds the assigned
entry. -/
theorem lookup_insertPair_self (s : List (String × CacheEntry)) (k : String)
    (e : CacheEntry) :
    lookupEntry (PlexDetailCache.insertPair s k e) k = some e := by
  unfold PlexDetailCache.insertPair lookupEntry
  by_cases h : s.any (fun p => p.1 == k)
  · rw [if_pos h, List.find?_map]
    have hpred : ((fun p : String × CacheEntry => p.1 == k) ∘
        (fun p => if p.1 == k then (k, e) else p)) =
        (fun p : String × CacheEntry => p.1 == k) := by
      funext p
      by_cases hp : p.1 = k
      · simp [hp]
      · simp [hp]
    rw [hpred]
    obtain ⟨q, hq, hqk⟩ := List.any_eq_true.mp h
    cases hfind : s.find? (fun p => p.1 == k) with
    | none =>
      rw [List.find?_eq_none] at hfind
      exact absurd hqk (hfind q hq)
    | some q2 =>
      have hq2 : q2.1 = k := by
        have h2 := List.find?_some hfind
        simpa using h2
      simp [hq2]
  · rw [if_neg h, List.find?_append]
    have h1 : s.find? (fun p => p.1 == k) = none := by
      rw [List.find?_eq_none]
      intro x hx hxk
      exact h (List.any_eq_true.mpr ⟨x, hx, hxk⟩)
    rw [h1]
    simp

/-- After `set` with a valid fingerprint, the store holds the details with
`cached_at` stamped to the insertion time. -/
theorem set_lookup_self (c : PlexDetailCache) (now : Nat) (item : PlexItem)
    (details : CacheEntry) (k : String) (hk : _make_cache_key item = some k) :
    lookupEntry (c.set now item details).cache k =
      some ({details with cached_at := some now}) := by
  unfold PlexDetailCache.set
  rw [hk]
  exact lookup_insertPair_self _ _ _

/-- Deleting a key from the store makes its lookup absent. -/
theorem lookup_filter_self (s : List (String × CacheEntry)) (k : String) :
    lookupEntry (s.filter (fun p => p.1 != k)) k = none := by
  unfold lookupEntry
  have h1 : (s.filter (fun p => p.1 != k)).find? (fun p => p.1 == k) = none := by
    rw [List.find?_eq_none]
    intro x hx
    rw [List.mem_filter] at hx
    simpa using hx.2
  rw [h1]
  rfl

/-- `set` preserves `max_age`. -/
theorem set_max_age (c : PlexDetailCache) (now : Nat) (item : PlexItem)
    (details : CacheEntry) : (c.set now item details).max_age = c.max_age := by
  unfold PlexDetailCache.set
  cases _make_cache_key item <;> rfl

/-- C6: for every cache, item with a valid fingerprint and details record, a
`get` performed while less than `max_age` has elapsed since the `set` returns
the stored record unchanged except for `cached_at`, which is stamped with the
insertion time (overwriting any caller-supplied value); once at least
`max_age` has elapsed, `get` returns absent and deletes the entry from the
store. -/
theorem c6_ttl_roundtrip (c : PlexDetailCache) (item : PlexItem)
    (details : CacheEntry) (t_set t_get : Nat) (k : String)
    (hk : _make_cache_key item = some k) :
    (((t_get : Int) - (t_set : Int) < (c.max_age : Int)) →
      ((c.set t_set item details).get t_get item).1 =
        some ({details with cached_at := some t_set})) ∧
    (((c.max_age : Int) ≤ (t_get : Int) - (t_set : Int)) →
      ((c.set t_set item details).get t_get item).1 = none ∧
      lookupEntry (((c.set t_set item details).get t_get item).2).cache k = none) := by
  have hl := set_lookup_self c t_set item details k hk
  have hmax := set_max_age c t_set item details
  constructor
  · intro hlt
    simp only [PlexDetailCache.get, hk, hl, hmax]
    rw [if_pos hlt]
  · intro hge
    have hnlt : ¬ ((t_get : Int) - (t_set : Int) < (c.max_age : Int)) :=
      not_lt.mpr hge
    simp only [PlexDetailCache.get, hk, hl, hmax]
    rw [if_neg hnlt]
    exact ⟨rfl, lookup_filter_self _ _⟩

/-- C6, instantiated: setting at time 100 a record whose caller-supplied
`cached_at` is 999 into an empty cache with `max_age` 30, a `get` at time 120
returns it stamped with 100, and a `get` at time 130 is absent and purges the
key. -/
theorem c6_ttl_roundtrip_witness :
    (((PlexDetailCache.mk [] 30 10000 0 0).set 100
        (PlexItem.mk (some ("g")) none none)
        (CacheEntry.mk (some ("tt1")) none (some ("movie")) none (some 999))).get
      120 (PlexItem.mk (some ("g")) none none)).1 =
      some (CacheEntry.mk (some ("tt1")) none (some ("movie")) none (some 100)) ∧
    (((PlexDetailCache.mk [] 30 10000 0 0).set 100
        (PlexItem.mk (some ("g")) none none)
        (CacheEntry.mk (some ("tt1")) none (some ("movie")) none (some 999))).get
      130 (PlexItem.mk (some ("g")) none none)).1 = none :=
  ⟨(c6_ttl_roundtrip (PlexDetailCache.mk [] 30 10000 0 0)
      (PlexItem.mk (some ("g")) none none)
      (CacheEntry.mk (some ("tt1")) none (some ("movie")) none (some 999))
      100 120 ("g") rfl).1 (by decide),
   ((c6_ttl_roundtrip (PlexDetailCache.mk [] 30 10000 0 0)
      (PlexItem.mk (some ("g")) none none)
      (CacheEntry.mk (some ("tt1")) none (some ("movie")) none (some 999))
      100 130 ("g") rfl).2 (by decide)).1⟩

/-- C1: whenever the initial watchlist is non-empty and the per-item loop
completes, `get_wanted_from_plex_watchlist` returns `[([], versions)]` — the
post-loop summary references the undefined name `items_to_process_async`, the
resulting `NameError` is caught by the enclosing top-level handler, the
accumulated wanted items are discarded, and the removals performed during the
run are kept. -/
theorem c1_nameerror_discards_run (env : Main.Env) {V : Type} (versions : V)
    (wl : List FetchedItem) (h : wl ≠ []) :
    (Main.get_wanted_from_plex_watchlist env versions wl).result = [([], versions)] ∧
    (Main.get_wanted_from_plex_watchlist env versions wl).removals =
      Main.loop_removed env wl := by
  unfold Main.get_wanted_from_plex_watchlist
  rw [if_neg (by simpa using h)]
  exact ⟨rfl, rfl⟩

/-- C1, instantiated: a two-item run that removed the collected movie and
accumulated the other as wanted still returns `[([], versions)]`, with the
removal kept and the non-empty wanted accumulation discarded. -/
theorem c1_nameerror_witness :
    Main.loop_wanted envMain [itemRemovedOk, itemWantedMovie] =
      [⟨("tt0468569"), ("movie"), ("main")⟩] ∧
    (Main.get_wanted_from_plex_watchlist envMain true
      [itemRemovedOk, itemWantedMovie]).result = [([], true)] ∧
    (Main.get_wanted_from_plex_watchlist envMain true
      [itemRemovedOk, itemWantedMovie]).removals = [itemRemovedOk] := by
  refine ⟨rfl, ?_, ?_⟩
  · exact (c1_nameerror_discards_run envMain true
      [itemRemovedOk, itemWantedMovie] (by decide)).1
  · rw [(c1_nameerror_discards_run envMain true
      [itemRemovedOk, itemWantedMovie] (by decide)).2]
    rfl

/-- The eviction comparison is transitive. -/
theorem cacheLe_trans (a b c' : String × CacheEntry) :
    PlexDetailCache.cacheLe a b = true → PlexDetailCache.cacheLe b c' = true →
    PlexDetailCache.cacheLe a c' = true := by
  simp only [PlexDetailCache.cacheLe, decide_eq_true_eq]
  omega

/-- The eviction comparison is total. -/
theorem cacheLe_total (a b : String × CacheEntry) :
    (PlexDetailCache.cacheLe a b || PlexDetailCache.cacheLe b a) = true := by
  simp only [PlexDetailCache.cacheLe, Bool.or_eq_true, decide_eq_true_eq]
  omega

/-- A dict assignment grows the store by at most one pair. -/
theorem insertPair_length (s : List (String × CacheEntry)) (k : String)
    (e : CacheEntry) :
    (PlexDetailCache.insertPair s k e).length ≤ s.length + 1 := by
  unfold PlexDetailCache.insertPair
  split
  · simp
  · simp

/-- When the store is at capacity, eviction removes exactly
`max 1 (maxE / 10)` pairs (the store's keys being distinct). -/
theorem evict_length_eq (s : List (String × CacheEntry)) (m : Nat)
    (hnodup : (s.map Prod.fst).Nodup) (hm1 : 1 ≤ m) (hm : m ≤ s.length) :
    (PlexDetailCache.evictIfFull s m).length + max 1 (m / 10) = s.length := by
  have hn : max 1 (m / 10) ≤ s.length := by omega
  unfold PlexDetailCache.evictIfFull
  rw [if_pos hm]
  set n := max 1 (m / 10) with hdefn
  set sorted := s.mergeSort PlexDetailCache.cacheLe with hdefs
  set R := (sorted.take n).map Prod.fst with hdefR
  have hperm : sorted.Perm s := List.mergeSort_perm s _
  have hlen : (s.filter (fun p => decide (p.1 ∉ R))).length
      = (sorted.filter (fun p => decide (p.1 ∉ R))).length :=
    (List.Perm.filter _ hperm).length_eq.symm
  have hnodup2 : (sorted.map Prod.fst).Nodup :=
    (List.Perm.nodup_iff (hperm.map Prod.fst)).mpr hnodup
  have hdisj : ∀ a ∈ (sorted.take n).map Prod.fst,
      a ∉ (sorted.drop n).map Prod.fst := by
    have h2 : ((sorted.take n).map Prod.fst ++ (sorted.drop n).map Prod.fst).Nodup := by
      rw [List.map_take, List.map_drop, List.take_append_drop]
      exact hnodup2
    exact fun a ha => List.disjoint_of_nodup_append h2 ha
  have hfil1 : (sorted.take n).filter (fun p => decide (p.1 ∉ R)) = [] := by
    rw [List.filter_eq_nil_iff]
    intro p hp
    have hmem : p.1 ∈ R := by
      rw [hdefR]
      exact List.mem_map.mpr ⟨p, hp, rfl⟩
    simp [hmem]
  have hfil2 : (sorted.drop n).filter (fun p => decide (p.1 ∉ R)) = sorted.drop n := by
    rw [List.filter_eq_self]
    intro p hp
    have hmem : p.1 ∉ R := by
      rw [hdefR]
      intro hin
      exact hdisj p.1 hin (List.mem_map.mpr ⟨p, hp, rfl⟩)
    simp [hmem]
  have hkey : (sorted.filter (fun p => decide (p.1 ∉ R))).length = sorted.length - n := by
    conv_lhs => rw [← List.take_append_drop n sorted]
    rw [List.filter_append, hfil1, hfil2]
    simp
  rw [hlen, hkey, hperm.length_eq]
  omega

/-- The pairs eviction removes are exactly the `max 1 (maxE / 10)` first in
`cached_at` order: their keys are gone from the post-eviction store, and every
surviving pair has a `cached_at` at least as recent. -/
theorem evict_oldest (s : List (String × CacheEntry)) (m : Nat)
    (hm : m ≤ s.length) :
    ∀ p ∈ (s.mergeSort PlexDetailCache.cacheLe).take (max 1 (m / 10)),
      p.1 ∉ (PlexDetailCache.evictIfFull s m).map Prod.fst ∧
      ∀ q ∈ PlexDetailCache.evictIfFull s m,
        PlexDetailCache.sortKey p.2 ≤ PlexDetailCache.sortKey q.2 := by
  intro p hp
  unfold PlexDetailCache.evictIfFull
  rw [if_pos hm]
  set n := max 1 (m / 10) with hdefn
  set sorted := s.mergeSort PlexDetailCache.cacheLe with hdefs
  set R := (sorted.take n).map Prod.fst with hdefR
  have hperm : sorted.Perm s := List.mergeSort_perm s _
  have hpR : p.1 ∈ R := by
    rw [hdefR]
    exact List.mem_map.mpr ⟨p, hp, rfl⟩
  constructor
  · intro hin
    rw [List.mem_map] at hin
    obtain ⟨q, hq, hq1⟩ := hin
    rw [List.mem_filter] at hq
    exact (of_decide_eq_true hq.2) (hq1 ▸ hpR)
  · intro q hq
    rw [List.mem_filter] at hq
    have hqR : q.1 ∉ R := of_decide_eq_true hq.2
    have hqs : q ∈ sorted := (hperm.mem_iff).mpr hq.1
    rw [← List.take_append_drop n sorted, List.mem_append] at hqs
    cases hqs with
    | inl h =>
      exact absurd (by rw [hdefR]; exact List.mem_map.mpr ⟨q, h, rfl⟩) hqR
    | inr h =>
      have hsorted : List.Pairwise
          (fun a b => PlexDetailCache.cacheLe a b = true) sorted :=
        List.sorted_mergeSort cacheLe_trans cacheLe_total s
      have hsplit : List.Pairwise
          (fun a b => PlexDetailCache.cacheLe a b = true)
          (sorted.take n ++ sorted.drop n) := by
        rw [List.take_append_drop]
        exact hsorted
      have hcross := (List.pairwise_append.mp hsplit).2.2 p hp q h
      simpa [PlexDetailCache.cacheLe] using hcross

/-- C7 amended: for every cache with pairwise-distinct keys, positive
`max_entries`, and store size at most `max_entries`, `set` preserves the size
bound; and whenever the store is at capacity, exactly `max 1 (max_entries/10)`
pairs — the oldest by `cached_at` — are evicted before the new entry is
inserted. -/
theorem c7_capacity_eviction (c : PlexDetailCache) (item : PlexItem)
    (details : CacheEntry) (now : Nat)
    (hkeys : (c.cache.map Prod.fst).Nodup)
    (hm : 1 ≤ c.max_entries)
    (hsize : c.cache.length ≤ c.max_entries) :
    (c.set now item details).cache.length ≤ c.max_entries ∧
    (c.max_entries ≤ c.cache.length →
      (PlexDetailCache.evictIfFull c.cache c.max_entries).length
          + max 1 (c.max_entries / 10) = c.cache.length ∧
      (∀ p ∈ (c.cache.mergeSort PlexDetailCache.cacheLe).take
          (max 1 (c.max_entries / 10)),
        p.1 ∉ (PlexDetailCache.evictIfFull c.cache c.max_entries).map Prod.fst ∧
        ∀ q ∈ PlexDetailCache.evictIfFull c.cache c.max_entries,
          PlexDetailCache.sortKey p.2 ≤ PlexDetailCache.sortKey q.2) ∧
      (∀ k, _make_cache_key item = some k →
        (c.set now item details).cache =
          PlexDetailCache.insertPair
            (PlexDetailCache.evictIfFull c.cache c.max_entries) k
            ({details with cached_at := some now}))) := by
  constructor
  · unfold PlexDetailCache.set
    cases hk : _make_cache_key item with
    | none => exact hsize
    | some k =>
      show (PlexDetailCache.insertPair
        (PlexDetailCache.evictIfFull c.cache c.max_entries) k
        ({details with cached_at := some now})).length ≤ c.max_entries
      have h1 := insertPair_length
        (PlexDetailCache.evictIfFull c.cache c.max_entries) k
        ({details with cached_at := some now})
      by_cases hfull : c.max_entries ≤ c.cache.length
      · have h2 := evict_length_eq c.cache c.max_entries hkeys hm hfull
        omega
      · have h3 : PlexDetailCache.evictIfFull c.cache c.max_entries = c.cache := by
          unfold PlexDetailCache.evictIfFull
          rw [if_neg hfull]
        rw [h3] at h1 ⊢
        omega
  · intro hfull
    refine ⟨evict_length_eq c.cache c.max_entries hkeys hm hfull,
      evict_oldest c.cache c.max_entries hfull, ?_⟩
    intro k hk
    unfold PlexDetailCache.set
    rw [hk]

/-- C7 counterexample: the claim as stated fails at `max_entries = 0` — the
empty store satisfies `size ≤ max_entries`, yet `set` with a valid key inserts
without being able to evict anything, leaving the store larger than
`max_entries`. -/
theorem c7_counterexample :
    (PlexDetailCache.mk [] 30 0 0 0).cache.length ≤
      (PlexDetailCache.mk [] 30 0 0 0).max_entries ∧
    (PlexDetailCache.mk [] 30 0 0 0).max_entries <
      ((PlexDetailCache.mk [] 30 0 0 0).set 5
        (PlexItem.mk (some ("g")) none none)
        (CacheEntry.mk none none none none none)).cache.length := by
  refine ⟨Nat.le_refl 0, ?_⟩
  show 0 < ((PlexDetailCache.mk [] 30 0 0 0).set 5
    (PlexItem.mk (some ("g")) none none)
    (CacheEntry.mk none none none none none)).cache.length
  unfold PlexDetailCache.set
  simp [_make_cache_key, PlexDetailCache.evictIfFull,
    PlexDetailCache.insertPair, List.mergeSort_nil]

/-- C7 amended, instantiated: a one-entry store at `max_entries = 1` stays
within bound after `set`, and the eviction step removes exactly one pair. -/
theorem c7_capacity_eviction_witness :
    ((PlexDetailCache.mk [(("k1"), CacheEntry.mk none none none none (some 1))]
        30 1 0 0).set 5
      (PlexItem.mk (some ("g")) none none)
      (CacheEntry.mk none none none none none)).cache.length ≤ 1 ∧
    (PlexDetailCache.evictIfFull
        [(("k1"), CacheEntry.mk none none none none (some 1))] 1).length
      + max 1 (1 / 10) = 1 := by
  have h := c7_capacity_eviction
    (PlexDetailCache.mk [(("k1"), CacheEntry.mk none none none none (some 1))]
      30 1 0 0)
    (PlexItem.mk (some ("g")) none none)
    (CacheEntry.mk none none none none none) 5
    (by simp) (Nat.le_refl 1) (by simp)
  exact ⟨h.1, (h.2 (by simp)).1⟩

/-- `set` never changes the capacity bound. -/
theorem set_max_entries (c : PlexDetailCache) (now : Nat) (item : PlexItem)
    (details : CacheEntry) : (c.set now item details).max_entries = c.max_entries := by
  unfold PlexDetailCache.set
  cases _make_cache_key item <;> rfl

/-- Eviction never grows the store. -/
theorem evict_length_le (s : List (String × CacheEntry)) (m : Nat) :
    (PlexDetailCache.evictIfFull s m).length ≤ s.length := by
  unfold PlexDetailCache.evictIfFull
  split
  · exact List.length_filter_le _ _
  · exact Nat.le_refl _

/-- `set` grows the store by at most one pair. -/
theorem set_cache_length (c : PlexDetailCache) (now : Nat) (item : PlexItem)
    (details : CacheEntry) :
    (c.set now item details).cache.length ≤ c.cache.length + 1 := by
  unfold PlexDetailCache.set
  cases hk : _make_cache_key item with
  | none => exact Nat.le_succ _
  | some k =>
    show (PlexDetailCache.insertPair
      (PlexDetailCache.evictIfFull c.cache c.max_entries) k
      ({details with cached_at := some now})).length ≤ c.cache.length + 1
    have h1 := insertPair_length
      (PlexDetailCache.evictIfFull c.cache c.max_entries) k
      ({details with cached_at := some now})
    have h2 := evict_length_le c.cache c.max_entries
    omega

/-- A dict assignment under a different key leaves a lookup unchanged. -/
theorem lookup_insertPair_other (s : List (String × CacheEntry))
    (k' : String) (e : CacheEntry) (k : String) (hkk : k' ≠ k) :
    lookupEntry (PlexDetailCache.insertPair s k' e) k = lookupEntry s k := by
  unfold PlexDetailCache.insertPair lookupEntry
  split
  · rw [List.find?_map]
    have hpred : ((fun p : String × CacheEntry => p.1 == k) ∘
        (fun p => if p.1 == k' then (k', e) else p)) =
        (fun p : String × CacheEntry => p.1 == k) := by
      funext p
      by_cases hp : p.1 = k'
      · simp [hp, Ne.symm hkk]
      · simp [hp]
    rw [hpred]
    cases hfind : s.find? (fun p => p.1 == k) with
    | none => rfl
    | some q =>
      have hq : q.1 = k := by
        have h2 := List.find?_some hfind
        simpa using h2
      have hq' : q.1 ≠ k' := by
        rw [hq]
        exact Ne.symm hkk
      simp [hq']
  · rw [List.find?_append]
    have h2 : List.find? (fun p => p.1 == k) [(k', e)] = none := by
      simp [hkk]
    rw [h2, Option.or_none]

/-- When no eviction can trigger, `set` under one fingerprint leaves lookups
of every other key unchanged. -/
theorem set_lookup_other (c : PlexDetailCache) (now : Nat) (item : PlexItem)
    (details : CacheEntry) (k : String)
    (hlen : c.cache.length < c.max_entries)
    (hne : _make_cache_key item ≠ some k) :
    lookupEntry (c.set now item details).cache k = lookupEntry c.cache k := by
  unfold PlexDetailCache.set
  cases hk : _make_cache_key item with
  | none => rfl
  | some k' =>
    have hkk : k' ≠ k := by
      intro h
      exact hne (h ▸ hk)
    have hev : PlexDetailCache.evictIfFull c.cache c.max_entries = c.cache := by
      unfold PlexDetailCache.evictIfFull
      rw [if_neg (by omega)]
    show lookupEntry (PlexDetailCache.insertPair
      (PlexDetailCache.evictIfFull c.cache c.max_entries) k'
      ({details with cached_at := some now})) k = lookupEntry c.cache k
    rw [hev]
    exact lookup_insertPair_other c.cache k'
      ({details with cached_at := some now}) k hkk

/-- The cache component of `_fetch_and_cache_items` is the per-request fold of
`cacheStep`. -/
theorem fetch_and_cache_eq_foldl (now : Nat) (c : PlexDetailCache)
    (items : List (PlexItem × HttpOutcome)) :
    (Coordinator._fetch_and_cache_items now c items).2 =
      items.foldl (Coordinator.cacheStep now) c := by
  unfold Coordinator._fetch_and_cache_items Watchlist.run_async_fetches
  show List.foldl
      (fun acc d => acc.set now d.original_plex_item (Coordinator.entryOf d)) c
      (items.map (fun p => Watchlist.fetch_item_details_and_extract_ids p.2 p.1)) =
    List.foldl (Coordinator.cacheStep now) c items
  rw [List.foldl_map]
  congr 1
  funext acc p
  show acc.set now
      (Watchlist.fetch_item_details_and_extract_ids p.2 p.1).original_plex_item
      (Coordinator.entryOf (Watchlist.fetch_item_details_and_extract_ids p.2 p.1))
    = Coordinator.cacheStep now acc p
  unfold Coordinator.cacheStep
  rw [fetch_original]

/-- Folding the coordinator's cache writes over a batch whose valid
fingerprints are pairwise distinct and whose writes fit under the capacity
bound: every item with a valid fingerprint ends up stored under it, stamped
with the write time; the store grows by at most the batch size; lookups of
untouched keys are preserved. -/
theorem foldl_cacheStep_spec (now : Nat) :
    ∀ (items : List (PlexItem × HttpOutcome)) (c : PlexDetailCache),
      (items.filterMap (fun p => _make_cache_key p.1)).Nodup →
      c.cache.length + items.length ≤ c.max_entries →
      ((∀ p ∈ items, ∀ k, _make_cache_key p.1 = some k →
        lookupEntry (items.foldl (Coordinator.cacheStep now) c).cache k =
          some ({Coordinator.entryOf
            (Watchlist.fetch_item_details_and_extract_ids p.2 p.1) with
              cached_at := some now})) ∧
      (items.foldl (Coordinator.cacheStep now) c).cache.length ≤
        c.cache.length + items.length ∧
      (∀ k, k ∉ items.filterMap (fun p => _make_cache_key p.1) →
        lookupEntry (items.foldl (Coordinator.cacheStep now) c).cache k =
          lookupEntry c.cache k)) := by
  intro items
  induction items with
  | nil =>
    intro c _ _
    refine ⟨?_, by simp, fun k _ => rfl⟩
    intro p hp
    exact absurd hp (List.not_mem_nil p)
  | cons q rest ih =>
    intro c hkeys hroom
    have hmax1 : (Coordinator.cacheStep now c q).max_entries = c.max_entries :=
      set_max_entries c now q.1 _
    have hlen1 : (Coordinator.cacheStep now c q).cache.length ≤ c.cache.length + 1 :=
      set_cache_length c now q.1 _
    rw [List.length_cons] at hroom
    cases hkq : _make_cache_key q.1 with
    | some kq =>
      have hfm : (q :: rest).filterMap (fun p => _make_cache_key p.1)
          = kq :: rest.filterMap (fun p => _make_cache_key p.1) := by
        simp [List.filterMap_cons, hkq]
      rw [hfm] at hkeys
      have hknotin : kq ∉ rest.filterMap (fun p => _make_cache_key p.1) :=
        (List.nodup_cons.mp hkeys).1
      have hkeys' : (rest.filterMap (fun p => _make_cache_key p.1)).Nodup :=
        (List.nodup_cons.mp hkeys).2
      have hroom' : (Coordinator.cacheStep now c q).cache.length + rest.length ≤
          (Coordinator.cacheStep now c q).max_entries := by
        rw [hmax1]
        omega
      obtain ⟨iha, ihb, ihc⟩ := ih (Coordinator.cacheStep now c q) hkeys' hroom'
      refine ⟨?_, ?_, ?_⟩
      · intro p hp k hk
        simp only [List.foldl_cons]
        rcases List.mem_cons.mp hp with rfl | hp'
        · have hkk : k = kq := by
            rw [hk] at hkq
            exact Option.some.inj hkq
          rw [ihc k (hkk ▸ hknotin)]
          exact set_lookup_self c now p.1
            (Coordinator.entryOf
              (Watchlist.fetch_item_details_and_extract_ids p.2 p.1)) k hk
        · exact iha p hp' k hk
      · simp only [List.foldl_cons, List.length_cons]
        omega
      · intro k hk
        rw [hfm] at hk
        have h1 : k ≠ kq ∧ k ∉ rest.filterMap (fun p => _make_cache_key p.1) := by
          rw [List.mem_cons] at hk
          push_neg at hk
          exact ⟨hk.1, hk.2⟩
        simp only [List.foldl_cons]
        rw [ihc k h1.2]
        exact set_lookup_other c now q.1 _ k (by omega)
          (by rw [hkq]; intro hcon; exact h1.1 (Option.some.inj hcon).symm)
    | none =>
      have hstep : Coordinator.cacheStep now c q = c := by
        unfold Coordinator.cacheStep PlexDetailCache.set
        rw [hkq]
      have hfm : (q :: rest).filterMap (fun p => _make_cache_key p.1)
          = rest.filterMap (fun p => _make_cache_key p.1) := by
        simp [List.filterMap_cons, hkq]
      rw [hfm] at hkeys
      have hroom' : c.cache.length + rest.length ≤ c.max_entries := by omega
      obtain ⟨iha, ihb, ihc⟩ := ih c hkeys hroom'
      refine ⟨?_, ?_, ?_⟩
      · intro p hp k hk
        simp only [List.foldl_cons, hstep]
        rcases List.mem_cons.mp hp with rfl | hp'
        · rw [hk] at hkq
          exact absurd hkq (by simp)
        · exact iha p hp' k hk
      · simp only [List.foldl_cons, hstep, List.length_cons]
        omega
      · intro k hk
        rw [hfm] at hk
        simp only [List.foldl_cons, hstep]
        exact ihc k hk

/-- C10: after `_fetch_and_cache_items`, every freshly fetched result —
success or per-item error alike — has been written into the cache under the
originating item's fingerprint with `cached_at` stamped to the write time
(so error entries expire under the same TTL as successes), provided the valid
fingerprints of the batch are pairwise distinct and the batch fits under the
capacity bound. -/
theorem c10_errors_cached (now : Nat) (c : PlexDetailCache)
    (items : List (PlexItem × HttpOutcome))
    (hkeys : (items.filterMap (fun p => _make_cache_key p.1)).Nodup)
    (hroom : c.cache.length + items.length ≤ c.max_entries) :
    ∀ p ∈ items, ∀ k, _make_cache_key p.1 = some k →
      lookupEntry ((Coordinator._fetch_and_cache_items now c items).2).cache k =
        some ({Coordinator.entryOf
          (Watchlist.fetch_item_details_and_extract_ids p.2 p.1) with
            cached_at := some now}) := by
  intro p hp k hk
  rw [fetch_and_cache_eq_foldl]
  exact (foldl_cacheStep_spec now items c hkeys hroom).1 p hp k hk

/-- C10, instantiated: a timed-out fetch is cached as an error entry stamped
with the write time. -/
theorem c10_errors_cached_witness :
    lookupEntry ((Coordinator._fetch_and_cache_items 7
        (PlexDetailCache.mk [] 30 10000 0 0)
        [(PlexItem.mk (some ("g1")) none none, HttpOutcome.timeout)]).2).cache
      ("g1") =
      some (CacheEntry.mk none none none (some ("Timeout")) (some 7)) :=
  c10_errors_cached 7 (PlexDetailCache.mk [] 30 10000 0 0)
    [(PlexItem.mk (some ("g1")) none none, HttpOutcome.timeout)]
    (by decide) (by decide)
    (PlexItem.mk (some ("g1")) none none, HttpOutcome.timeout)
    (List.mem_singleton.mpr rfl) ("g1") rfl
